import Mathlib

/-!
Shallow embedding of the `classyScroll` engine (the ghost-proxy `index.ts`
variant with a `persistent` flag, a `Map`-based tracked-element table, a FIFO
stagger queue and a debounced resize handler), together with the event-loop
surface it uses (timeouts, animation frames, an intersection observer).

DOM nodes are identified by natural-number ids.  Machine timing is virtual:
pending timeouts carry an absolute due instant and fire in (due, insertion)
order, as the host event loop would.  Strings are modelled as lists of
characters so that every operation computes by structural recursion.  Numbers
coming from CSS strings are modelled as rationals; the numeral parser covers
the finite decimal numerals (optionally signed, fractional, exponent) that
computed `matrix()` strings contain — IEEE infinities and hex literals, which
such strings never contain, are outside the model and parse as NaN (`none`).
-/

namespace ClassyScroll

/-- A JS string, as a list of characters. -/
abbrev Str := List Char

/-- Coerce a Lean string literal into the model's string type. -/
def str (s : String) : Str := s.toList

/-! ## JavaScript string and number primitives -/

/-- JS WhiteSpace and LineTerminator code points recognised by `Number` and
`parseInt` when trimming. -/
def isJsWhitespace (c : Char) : Bool :=
  c = ' ' || c = '\t' || c = '\n' || c = '\r' || c = '\x0b' || c = '\x0c' ||
  c = '\u00A0' || c = '\u2028' || c = '\u2029'

/-- JS LineTerminator code points, which `.` in a regex never matches. -/
def isLineTerminator (c : Char) : Bool :=
  c = '\n' || c = '\r' || c = '\u2028' || c = '\u2029'

/-- Does the first string start with the second? -/
def startsWithL : Str → Str → Bool
  | _, [] => true
  | [], _ :: _ => false
  | c :: cs, p :: ps => c = p && startsWithL cs ps

/-- `String.prototype.split` with a non-empty separator, fuel-bounded so that
it computes by structural recursion; the fuel is the input length, which the
wrapper below supplies. -/
def splitOnLGo (sep : Str) : Nat → Str → Str → List Str
  | 0, l, acc => [acc.reverse ++ l]
  | fuel + 1, l, acc =>
    match l with
    | [] => [acc.reverse]
    | c :: rest =>
      if startsWithL l sep then
        acc.reverse :: splitOnLGo sep fuel (l.drop sep.length) []
      else
        splitOnLGo sep fuel rest (c :: acc)

/-- `s.split(sep)` for a non-empty separator `sep`. -/
def splitOnL (sep l : Str) : List Str := splitOnLGo sep l.length l []

/-- Numeric value of a list of decimal digit characters. -/
def digitsVal (l : Str) : Nat :=
  l.foldl (fun a c => a * 10 + (c.toNat - 48)) 0

/-- A non-empty all-digit run, or `none`. -/
def parseDigitList (l : Str) : Option Nat :=
  if l ≠ [] ∧ l.all Char.isDigit then some (digitsVal l) else none

/-- `parseInt(str, 10)`: skip leading whitespace, optional sign, then the
longest leading digit run; no digits means NaN (`none`). -/
def parseIntJS (s : Str) : Option Int :=
  let core : Str → Option Nat := fun l =>
    let ds := l.takeWhile Char.isDigit
    if ds = [] then none else some (digitsVal ds)
  match s.dropWhile isJsWhitespace with
  | '-' :: rest => (core rest).map (fun n => -(n : Int))
  | '+' :: rest => (core rest).map (fun n => (n : Int))
  | l => (core l).map (fun n => (n : Int))

/-- Mantissa of a decimal numeral: `digits`, `digits.digits?`, or `.digits`. -/
def parseMantissa (l : Str) : Option Rat :=
  match l.findIdx? (· = '.') with
  | none => (parseDigitList l).map (fun n => (n : Rat))
  | some i =>
    let ip := l.take i
    let fp := l.drop (i + 1)
    if fp.contains '.' then none
    else if ip.all Char.isDigit ∧ fp.all Char.isDigit ∧ (ip ≠ [] ∨ fp ≠ []) then
      some ((digitsVal ip : Rat) + (digitsVal fp : Rat) / ((10 : Rat) ^ fp.length))
    else none

/-- Exponent part after `e`/`E`: optional sign then digits. -/
def parseExpPart (l : Str) : Option Int :=
  match l with
  | '-' :: rest => (parseDigitList rest).map (fun n => -(n : Int))
  | '+' :: rest => (parseDigitList rest).map (fun n => (n : Int))
  | _ => (parseDigitList l).map (fun n => (n : Int))

/-- Unsigned decimal numeral with optional exponent. -/
def parseUnsignedNumeral (l : Str) : Option Rat :=
  match l.findIdx? (fun c => c = 'e' ∨ c = 'E') with
  | none => parseMantissa l
  | some i =>
    match parseMantissa (l.take i), parseExpPart (l.drop (i + 1)) with
    | some v, some e => some (v * (10 : Rat) ^ e)
    | _, _ => none

/-- `Number(str)` restricted to finite decimal numerals: trim whitespace,
empty means `0`, otherwise an optionally signed decimal numeral; anything
else is NaN (`none`). -/
def jsNumber (s : Str) : Option Rat :=
  let l := ((s.dropWhile isJsWhitespace).reverse.dropWhile isJsWhitespace).reverse
  if l = [] then some 0
  else match l with
    | '-' :: rest => (parseUnsignedNumeral rest).map (fun v => -v)
    | '+' :: rest => parseUnsignedNumeral rest
    | _ => parseUnsignedNumeral l

/-- The JS regex match `transform.match(/^matrix(?:3d)?\((.+)\)$/)`, returning
the capture group: the string must start with `matrix(` or `matrix3d(`, end
with `)`, and hold at least one character in between, none of which may be a
line terminator (`.` never crosses one; greedy `(.+)` captures up to the final
parenthesis). -/
def matchMatrix (t : Str) : Option Str :=
  let core :=
    if startsWithL t (str "matrix3d(") then some (t.drop 9)
    else if startsWithL t (str "matrix(") then some (t.drop 7)
    else none
  match core with
  | none => none
  | some c =>
    if c.getLast? = some ')' then
      let inner := c.dropLast
      if inner.length > 0 ∧ inner.all (fun ch => ¬ isLineTerminator ch) then
        some inner
      else none
    else none

/-- A 2-D translation read off a computed transform. -/
structure Translate where
  x : Rat
  y : Rat
deriving DecidableEq, Repr

/-- `valueues[i] || 0`: an out-of-range index (undefined), NaN or zero all
collapse to `0`. -/
def valueOr0 (vs : List (Option Rat)) (i : Nat) : Rat :=
  match vs.getD i none with
  | some v => v
  | none => 0

/-- `getComputedTranslate` from the source: a falsy (`none` for absent, or
empty) or `none`-valued transform gives zero; a non-matrix-shaped string gives
zero; otherwise the matrix body is split on `", "`, converted with `Number`,
and indices 12/13 (3-D, 16 values) or 4/5 (2-D) are read with `|| 0`. -/
def getComputedTranslate (tOpt : Option Str) : Translate :=
  match tOpt with
  | none => { x := 0, y := 0 }
  | some transform =>
    if transform = [] ∨ transform = str "none" then { x := 0, y := 0 }
    else
      match matchMatrix transform with
      | none => { x := 0, y := 0 }
      | some inner =>
        let valueues := (splitOnL (str ", ") inner).map jsNumber
        if valueues.length = 16 then
          { x := valueOr0 valueues 12, y := valueOr0 valueues 13 }
        else
          { x := valueOr0 valueues 4, y := valueOr0 valueues 5 }

/-! ## DOM and instance data model -/

/-- The caller-visible data of one source element: its two `data-cs-*`
attributes, its live class list, its current bounding box, and its computed
transform (`none` when the property is absent). -/
structure ElemInfo where
  csClass : Option Str
  csDelay : Option Str
  classList : List Str
  rectTop : Rat
  rectLeft : Rat
  rectWidth : Rat
  rectHeight : Rat
  transform : Option Str
deriving DecidableEq, Repr

/-- A ghost proxy node standing in the document, with the inline position and
size assigned at creation. -/
structure GhostInfo where
  top : Rat
  left : Rat
  width : Rat
  height : Rat
deriving DecidableEq, Repr

/-- `ElementState` from the source: the ghost node (by id), an optional
pending delayed-apply timeout id, and the captured layout top/height. -/
structure EState where
  ghost : Nat
  timeoutId : Option Nat
  top : Rat
  height : Rat
deriving DecidableEq, Repr

/-- The per-instance `config` snapshot resolved at construction. -/
structure Config where
  className : Str
  threshold : Rat
  rootMargin : Str
  persistent : Bool
  stagger : Nat
  delay : Int
  debug : Bool
deriving DecidableEq, Repr

/-- The caller's options object; `none` models an absent field.  The source
field named `class` is spelled `classOpt` (`class` is a Lean keyword). -/
structure Options where
  classOpt : Option Str := none
  threshold : Option Rat := none
  rootMargin : Option Str := none
  persistent : Option Bool := none
  stagger : Option Nat := none
  delay : Option Int := none
  debug : Option Bool := none
deriving DecidableEq, Repr

/-- Config resolution from the source: `class`/`rootMargin` default through
`||` (so the empty string also falls back), the rest through `??`. -/
def resolveConfig (o : Options) : Config :=
  { className := match o.classOpt with
      | some c => if c = [] then str "is-visible" else c
      | none => str "is-visible"
    threshold := o.threshold.getD (1 / 10)
    rootMargin := match o.rootMargin with
      | some m => if m = [] then str "0px" else m
      | none => str "0px"
    persistent := o.persistent.getD true
    stagger := o.stagger.getD 0
    delay := o.delay.getD 0
    debug := o.debug.getD false }

/-- A callback pending on the event loop. -/
inductive TimerTask where
  /-- The `execute` closure of a delayed `applyClass`, carrying the class
  tokens captured when the timeout was set. -/
  | execDelayed (el : Nat) (classes : List Str)
  /-- The self-rescheduled `processQueue` stagger drain step. -/
  | drainStep
  /-- The debounced body of the `resize` handler. -/
  | resizeFlush
deriving DecidableEq, Repr

/-- A pending timeout: identity, absolute due instant, and what runs. -/
structure Timer where
  id : Nat
  due : Nat
  task : TimerTask
deriving DecidableEq, Repr

/-- The whole world: one `classyScroll` instance closure plus the DOM and
event-loop facts it interacts with. -/
structure Sys where
  cfg : Config
  /-- Result of `matchMedia('(prefers-reduced-motion: reduce)').matches`. -/
  reduced : Bool
  scrollX : Rat
  scrollY : Rat
  /-- The source elements of the document, by id. -/
  elems : List (Nat × ElemInfo)
  /-- The `trackedElements` map, in insertion order. -/
  tracked : List (Nat × EState)
  /-- The stagger `queue` of source-element ids. -/
  queue : List Nat
  isProcessingQueue : Bool
  /-- Ghost ids currently observed by the `IntersectionObserver`. -/
  observed : List Nat
  /-- Ghost nodes currently appended to the document body. -/
  ghosts : List (Nat × GhostInfo)
  nextGhostId : Nat
  /-- Pending timeouts, in creation order. -/
  timers : List Timer
  nextTimerId : Nat
  /-- Virtual current time in milliseconds. -/
  now : Nat
  /-- Whether the debug overlay canvas is in the document. -/
  canvas : Bool
  /-- The pending animation-frame handle (`drawFrame`), if any. -/
  frame : Option Nat
  nextFrameId : Nat
  /-- The id of the pending debounce timeout of the resize handler. -/
  resizeTimerId : Option Nat
  /-- Whether the instance's `resize` listener is attached. -/
  resizeListener : Bool
  /-- Invocation log of the caller-supplied `callback`, in order. -/
  callbacks : List Nat
deriving DecidableEq, Repr

/-! ## Map and DOM helpers -/

/-- `Map.get`: the value at the first (unique) entry for a key. -/
def lookup {α : Type} (m : List (Nat × α)) (k : Nat) : Option α :=
  (m.find? (fun p => p.1 = k)).map (fun p => p.2)

/-- `Map.set`: replace the value at an existing key in place, else append. -/
def setKey {α : Type} (m : List (Nat × α)) (k : Nat) (v : α) : List (Nat × α) :=
  if m.any (fun p => p.1 = k) then
    m.map (fun p => if p.1 = k then (k, v) else p)
  else m ++ [(k, v)]

/-- `DOMTokenList.add`: append each token not already present, in order. -/
def classListAdd (cl : List Str) (cs : List Str) : List Str :=
  cs.foldl (fun acc c => if acc.contains c then acc else acc ++ [c]) cl

/-- `DOMTokenList.remove`: delete every listed token. -/
def classListRemove (cl : List Str) (cs : List Str) : List Str :=
  cl.filter (fun c => ¬ cs.contains c)

/-- Rewrite one element of the document in place. -/
def updateElem (s : Sys) (el : Nat) (f : ElemInfo → ElemInfo) : Sys :=
  { s with elems := s.elems.map (fun p => if p.1 = el then (p.1, f p.2) else p) }

/-- `clearTimeout`: drop the pending timeout with the given id. -/
def clearTimer (s : Sys) (id : Nat) : Sys :=
  { s with timers := s.timers.filter (fun t => t.id ≠ id) }

/-- `window.setTimeout`: append a pending timeout due `wait` ms from now and
hand back its id. -/
def setTimer (s : Sys) (wait : Nat) (task : TimerTask) : Nat × Sys :=
  (s.nextTimerId,
   { s with
      timers := s.timers ++ [{ id := s.nextTimerId, due := s.now + wait, task := task }]
      nextTimerId := s.nextTimerId + 1 })

/-! ## The engine, line for line -/

/-- `isReducedMotion()`. -/
def isReducedMotion (s : Sys) : Bool := s.reduced

/-- `element.dataset.csClass || config.className` (an empty attribute is
falsy and falls back). -/
def effClassStr (cfg : Config) (info : ElemInfo) : Str :=
  match info.csClass with
  | some c => if c = [] then cfg.className else c
  | none => cfg.className

/-- The effective reveal class tokens: `(… || config.className).split(' ')`. -/
def effClasses (cfg : Config) (info : ElemInfo) : List Str :=
  splitOnL (str " ") (effClassStr cfg info)

/-- `parseInt(element.dataset.csDelay || '0', 10) || config.delay`: an absent
or empty attribute reads as `'0'`; a NaN or zero parse falls back to the
config delay. -/
def effDelay (cfg : Config) (info : ElemInfo) : Int :=
  let raw : Str := match info.csDelay with
    | some d => if d = [] then str "0" else d
    | none => str "0"
  match parseIntJS raw with
  | some n => if n = 0 then cfg.delay else n
  | none => cfg.delay

/-- `createGhost`: measure the element, subtract the active 2-D translation
from its viewport box plus page scroll, append a hidden absolutely positioned
clone at that resting position, and return the new `ElementState`. -/
def createGhost (s : Sys) (info : ElemInfo) : EState × Sys :=
  let naturalTranslate := getComputedTranslate info.transform
  let layoutTop := info.rectTop + s.scrollY - naturalTranslate.y
  let layoutLeft := info.rectLeft + s.scrollX - naturalTranslate.x
  let gid := s.nextGhostId
  let ghost : GhostInfo :=
    { top := layoutTop, left := layoutLeft, width := info.rectWidth, height := info.rectHeight }
  ({ ghost := gid, timeoutId := none, top := layoutTop, height := info.rectHeight },
   { s with ghosts := s.ghosts ++ [(gid, ghost)], nextGhostId := gid + 1 })

/-- The `execute` closure inside `applyClass`: add the captured class tokens
to the source element and invoke the caller's callback. -/
def execute (s : Sys) (el : Nat) (classes : List Str) : Sys :=
  let s1 := updateElem s el (fun i => { i with classList := classListAdd i.classList classes })
  { s1 with callbacks := s1.callbacks ++ [el] }

/-- `applyClass`: read the element-local overrides live; when the effective
delay is positive and motion is not reduced, schedule `execute` and record the
timeout id on the element's tracked state (if any); otherwise run it now.
The `none` branch is a totality artifact: every element a scenario touches is
in `elems`. -/
def applyClass (s : Sys) (el : Nat) : Sys :=
  match lookup s.elems el with
  | none => s
  | some info =>
    let classes := effClasses s.cfg info
    let elementDelay := effDelay s.cfg info
    if elementDelay > 0 ∧ ¬ isReducedMotion s then
      let (id, s1) := setTimer s elementDelay.toNat (TimerTask.execDelayed el classes)
      match lookup s1.tracked el with
      | some st => { s1 with tracked := setKey s1.tracked el { st with timeoutId := some id } }
      | none => s1
    else
      execute s el classes

/-- `processQueue`: an empty queue stops the drain; otherwise mark draining,
pop the front source, apply its reveal, and unconditionally schedule the next
drain step after `reduced-motion ? 0 : config.stagger` ms. -/
def processQueue (s : Sys) : Sys :=
  match s.queue with
  | [] => { s with isProcessingQueue := false }
  | el :: rest =>
    let s1 := { s with isProcessingQueue := true, queue := rest }
    let s2 := applyClass s1 el
    let wait := if isReducedMotion s2 then 0 else s2.cfg.stagger
    (setTimer s2 wait TimerTask.drainStep).2

/-- Resolve an observed ghost back to its source element by linear scan of the
tracked-element table, falling back to the target itself. -/
def resolveElement (s : Sys) (target : Nat) : Nat :=
  match s.tracked.find? (fun p => p.2.ghost = target) with
  | some p => p.1
  | none => target

/-- The body of the `IntersectionObserver` callback for one entry, keyed by
the observed ghost id.  Enter: under a persistent config unobserve the ghost;
skip everything if the element already carries the first effective class;
enqueue (and start the drain if idle) when staggering applies, else apply
directly.  Exit (non-persistent only): drop the element from the queue, clear
its pending delay timeout, and remove the effective classes. -/
def onEntry (s : Sys) (target : Nat) (isIntersecting : Bool) : Sys :=
  let element := resolveElement s target
  if isIntersecting then
    let s1 := if s.cfg.persistent then
        { s with observed := s.observed.filter (fun g => g ≠ target) }
      else s
    match lookup s1.elems element with
    | none => s1
    | some info =>
      let classes := effClasses s1.cfg info
      let isAlreadyActive := info.classList.contains (classes.headD [])
      if s1.cfg.stagger > 0 ∧ ¬ isReducedMotion s1 ∧ ¬ s1.queue.contains element ∧
          ¬ isAlreadyActive then
        let s2 := { s1 with queue := s1.queue ++ [element] }
        if ¬ s2.isProcessingQueue then processQueue s2 else s2
      else if ¬ isAlreadyActive then
        applyClass s1 element
      else s1
  else if ¬ s.cfg.persistent then
    let s1 := { s with queue := s.queue.erase element }
    let s2 := match lookup s1.tracked element with
      | some st =>
        match st.timeoutId with
        | some id =>
          let s' := clearTimer s1 id
          { s' with tracked := setKey s'.tracked element { st with timeoutId := none } }
        | none => s1
      | none => s1
    updateElem s2 element
      (fun i => { i with classList := classListRemove i.classList (effClasses s2.cfg i) })
  else s

/-- One `IntersectionObserver` delivery: entries processed in order. -/
def observerCallback (s : Sys) (entries : List (Nat × Bool)) : Sys :=
  entries.foldl (fun acc e => onEntry acc e.1 e.2) s

/-- `register`: a no-op for an already-tracked source; otherwise create the
ghost, record the state, and observe the ghost.  The inner `none` branch is a
totality artifact: a registered element is in `elems`. -/
def register (s : Sys) (el : Nat) : Sys :=
  if s.tracked.any (fun p => p.1 = el) then s
  else
    match lookup s.elems el with
    | none => s
    | some info =>
      let (st, s1) := createGhost s info
      let s2 := { s1 with tracked := setKey s1.tracked el st }
      { s2 with observed := s2.observed ++ [st.ghost] }

/-- The `resize` listener: debounce by replacing any pending flush timeout
with a fresh one due in 150 ms. -/
def onResize (s : Sys) : Sys :=
  let s0 := match s.resizeTimerId with
    | some id => clearTimer s id
    | none => s
  let (id, s1) := setTimer s0 150 TimerTask.resizeFlush
  { s1 with resizeTimerId := some id }

/-- One iteration of the debounced resize body: unobserve and remove the old
ghost, build a freshly measured one, merge it into the tracked state keeping
the pending timeout id (`{ ...state, ...newState }`), and observe it. -/
def resyncOne (s : Sys) (el : Nat) (st : EState) : Sys :=
  let s1 := { s with
    observed := s.observed.filter (fun g => g ≠ st.ghost)
    ghosts := s.ghosts.filter (fun p => p.1 ≠ st.ghost) }
  match lookup s1.elems el with
  | none => s1
  | some info =>
    let (newSt, s2) := createGhost s1 info
    let merged : EState :=
      { ghost := newSt.ghost, timeoutId := st.timeoutId, top := newSt.top, height := newSt.height }
    let s3 := { s2 with tracked := setKey s2.tracked el merged }
    { s3 with observed := s3.observed ++ [newSt.ghost] }

/-- The debounced resize body: rebuild every tracked proxy wholesale, in
table order. -/
def resizeFlush (s : Sys) : Sys :=
  s.tracked.foldl (fun acc p => resyncOne acc p.1 p.2) s

/-- One iteration of the teardown loop over `trackedElements`: remove the
entry's ghost from the document and clear its recorded timeout, if any. -/
def destroyStep (acc : Sys) (p : Nat × EState) : Sys :=
  let acc1 := { acc with ghosts := acc.ghosts.filter (fun g => g.1 ≠ p.2.ghost) }
  match p.2.timeoutId with
  | some id => clearTimer acc1 id
  | none => acc1

/-- `destroy`: detach the resize listener, clear its debounce, disconnect the
observer, tear down the debug overlay and frame loop, remove every ghost and
clear every recorded per-element timeout, then empty the table and the queue. -/
def destroy (s : Sys) : Sys :=
  let s1 := { s with resizeListener := false }
  let s2 := match s1.resizeTimerId with
    | some id => clearTimer s1 id
    | none => s1
  let s3 := { s2 with observed := [] }
  let s4 := if s3.cfg.debug then { s3 with frame := none, canvas := false } else s3
  let s5 := s4.tracked.foldl destroyStep s4
  { s5 with tracked := [], queue := [] }

/-- The `classyScroll` entry point: resolve the config, set up the closure
state, attach the resize listener, create the debug overlay and start its
frame loop when asked, then register every target.  Selector resolution is
outside the model: the caller passes the resolved element ids. -/
def classyScroll (o : Options) (reduced : Bool) (scrollX scrollY : Rat)
    (elems : List (Nat × ElemInfo)) (targets : List Nat) : Sys :=
  let cfg := resolveConfig o
  let s0 : Sys :=
    { cfg := cfg
      reduced := reduced
      scrollX := scrollX
      scrollY := scrollY
      elems := elems
      tracked := []
      queue := []
      isProcessingQueue := false
      observed := []
      ghosts := []
      nextGhostId := 0
      timers := []
      nextTimerId := 0
      now := 0
      canvas := cfg.debug
      frame := if cfg.debug then some 0 else none
      nextFrameId := 1
      resizeTimerId := none
      resizeListener := true
      callbacks := [] }
  targets.foldl register s0

/-! ## The virtual event loop -/

/-- The effect of a timeout firing. -/
def runTask (s : Sys) (t : TimerTask) : Sys :=
  match t with
  | TimerTask.execDelayed el classes => execute s el classes
  | TimerTask.drainStep => processQueue s
  | TimerTask.resizeFlush => resizeFlush s

/-- The pending timeout that fires next: smallest due instant, ties broken by
creation order. -/
def nextTimer (s : Sys) : Option Timer :=
  s.timers.foldl
    (fun acc t =>
      match acc with
      | none => some t
      | some b => if t.due < b.due then some t else acc)
    none

/-- Fire the next pending timeout, advancing the clock to its due instant. -/
def fireNext (s : Sys) : Sys :=
  match nextTimer s with
  | none => s
  | some t =>
    runTask { s with timers := s.timers.filter (fun u => u.id ≠ t.id), now := max s.now t.due }
      t.task

/-- Fire, in order, every pending timeout due at or before instant `t`
(fuel-bounded; any fuel at least the number of firings is enough), then settle
the clock at `t`. -/
def advanceTo : Nat → Nat → Sys → Sys
  | 0, t, s => { s with now := max s.now t }
  | fuel + 1, t, s =>
    match nextTimer s with
    | some tm => if tm.due ≤ t then advanceTo fuel t (fireNext s) else { s with now := max s.now t }
    | none => { s with now := max s.now t }

/-! ## The one-proxy-per-source invariant -/

/-- The ghost ids standing in the document. -/
def docGhostIds (s : Sys) : List Nat := s.ghosts.map Prod.fst

/-- The ghost ids recorded in the tracked-element table. -/
def trackedGhostIds (s : Sys) : List Nat := s.tracked.map (fun p => p.2.ghost)

/-- Exactly one ghost node per tracked source: the document's instance-owned
ghosts and the table's recorded ghosts agree with multiplicity one, recorded
ids stay below the allocator, table keys are unique, and every tracked source
exists in the document model. -/
structure GhostInv (s : Sys) : Prop where
  counts : ∀ g, (docGhostIds s).count g = (trackedGhostIds s).count g
  docNodup : ∀ g, (docGhostIds s).count g ≤ 1
  docBound : ∀ g ∈ docGhostIds s, g < s.nextGhostId
  keysNodup : (s.tracked.map Prod.fst).Nodup
  elemsOk : ∀ p ∈ s.tracked, lookup s.elems p.1 ≠ none

/-! ## Concrete scenario states -/

/-- An element with no overrides, no classes, a 100×50 box at the origin and
no transform. -/
def plainElem : ElemInfo :=
  { csClass := none, csDelay := none, classList := [], rectTop := 0, rectLeft := 0,
    rectWidth := 100, rectHeight := 50, transform := none }

/-- Three plain source elements. -/
def elems3 : List (Nat × ElemInfo) := [(1, plainElem), (2, plainElem), (3, plainElem)]

/-- The class list of one element of the document. -/
def cls (s : Sys) (el : Nat) : List Str :=
  ((lookup s.elems el).map (fun i => i.classList)).getD []

/-- Stagger scenario: three elements registered with `stagger = 100`, all
three enter notifications delivered in one pass (ghost ids 0, 1, 2). -/
def sC2 : Sys :=
  observerCallback
    (classyScroll { classOpt := some (str "visible"), stagger := some 100 } false 0 0
      elems3 [1, 2, 3])
    [(0, true), (1, true), (2, true)]

/-- Teardown scenario: one element with `stagger = 100` enters, leaving a
pending drain-step timeout. -/
def sC4pre : Sys :=
  observerCallback
    (classyScroll { stagger := some 100 } false 0 0 [(1, plainElem)] [1])
    [(0, true)]

/-- The C4 instance right after `destroy`. -/
def sC4 : Sys := destroy sC4pre

/-- Override scenario: an element whose `data-cs-delay` is `"0"` under a
global `delay = 500`. -/
def elC8 : ElemInfo := { plainElem with csDelay := some (str "0") }

/-- The C8 instance after the element's enter notification. -/
def sC8 : Sys :=
  onEntry (classyScroll { delay := some 500 } false 0 0 [(1, elC8)] [1]) 0 true

/-- Reduced-motion scenario: two elements with `stagger = 100`, `delay = 100`
under an active reduced-motion preference, both entering in one pass. -/
def sC7 : Sys :=
  observerCallback
    (classyScroll { stagger := some 100, delay := some 100 } true 0 0 elems3 [1, 2])
    [(0, true), (1, true)]

/-- Exit-before-drain scenario: two elements with `stagger = 100`; both
enter in one pass, then the still-queued second one exits. -/
def sC5 : Sys :=
  observerCallback
    (classyScroll { stagger := some 100, persistent := some false } false 0 0 elems3 [1, 2])
    [(0, true), (1, true), (1, false)]

/-- A one-element instance under the default (persistent) config. -/
def sPersist : Sys := classyScroll {} false 0 0 [(1, plainElem)] [1]

/-- Two elements of a `stagger = 100` instance entering in one pass: element
1 applied, element 2 left queued. -/
def sC9 : Sys :=
  observerCallback
    (classyScroll { classOpt := some (str "visible"), stagger := some 100 } false 0 0
      elems3 [1, 2])
    [(0, true), (1, true)]

/-! ## Field-preservation lemmas -/

theorem execute_fields (s : Sys) (el : Nat) (cs : List Str) :
    (execute s el cs).queue = s.queue ∧ (execute s el cs).isProcessingQueue = s.isProcessingQueue ∧
    (execute s el cs).observed = s.observed ∧ (execute s el cs).timers = s.timers ∧
    (execute s el cs).cfg = s.cfg ∧ (execute s el cs).reduced = s.reduced ∧
    (execute s el cs).now = s.now ∧ (execute s el cs).tracked = s.tracked := by
  refine ⟨rfl, rfl, rfl, rfl, rfl, rfl, rfl, rfl⟩

/-- `applyClass` leaves the queue, the drain flag, the observed set, the
config, the preference, the clock and the drain-step slice of the pending
timeouts untouched (it only ever appends a delayed-apply timeout). -/
theorem applyClass_fields (s : Sys) (el : Nat) :
    (applyClass s el).queue = s.queue ∧
    (applyClass s el).isProcessingQueue = s.isProcessingQueue ∧
    (applyClass s el).observed = s.observed ∧
    (applyClass s el).cfg = s.cfg ∧
    (applyClass s el).reduced = s.reduced ∧
    (applyClass s el).now = s.now ∧
    ((applyClass s el).timers.filter (fun t => t.task = TimerTask.drainStep)) =
      (s.timers.filter (fun t => t.task = TimerTask.drainStep)) := by
  unfold applyClass setTimer
  cases h : lookup s.elems el <;> dsimp only
  · exact ⟨rfl, rfl, rfl, rfl, rfl, rfl, rfl⟩
  · split
    · split <;> simp [List.filter_append]
    · exact ⟨rfl, rfl, rfl, rfl, rfl, rfl, rfl⟩

theorem applyClass_queue (s : Sys) (el : Nat) : (applyClass s el).queue = s.queue :=
  (applyClass_fields s el).1

theorem applyClass_isProcessingQueue (s : Sys) (el : Nat) :
    (applyClass s el).isProcessingQueue = s.isProcessingQueue :=
  (applyClass_fields s el).2.1

theorem applyClass_observed (s : Sys) (el : Nat) : (applyClass s el).observed = s.observed :=
  (applyClass_fields s el).2.2.1

theorem applyClass_cfg (s : Sys) (el : Nat) : (applyClass s el).cfg = s.cfg :=
  (applyClass_fields s el).2.2.2.1

theorem applyClass_reduced (s : Sys) (el : Nat) : (applyClass s el).reduced = s.reduced :=
  (applyClass_fields s el).2.2.2.2.1

theorem applyClass_now (s : Sys) (el : Nat) : (applyClass s el).now = s.now :=
  (applyClass_fields s el).2.2.2.2.2.1

theorem applyClass_drain_timers (s : Sys) (el : Nat) :
    ((applyClass s el).timers.filter (fun t => t.task = TimerTask.drainStep)) =
      (s.timers.filter (fun t => t.task = TimerTask.drainStep)) :=
  (applyClass_fields s el).2.2.2.2.2.2

theorem processQueue_observed (s : Sys) : (processQueue s).observed = s.observed := by
  unfold processQueue
  split
  · rfl
  · simp [setTimer, applyClass_observed]

/-! ## Map-lookup lemmas -/

theorem lookup_cons {α : Type} (p : Nat × α) (m : List (Nat × α)) (k : Nat) :
    lookup (p :: m) k = if p.1 = k then some p.2 else lookup m k := by
  by_cases h : p.1 = k <;> simp [lookup, List.find?, h]

theorem lookup_eq_none_of_any_eq_false {α : Type} (m : List (Nat × α)) (k : Nat)
    (h : m.any (fun p => p.1 = k) = false) : lookup m k = none := by
  induction m with
  | nil => rfl
  | cons p m ih =>
    by_cases hp : p.1 = k
    · simp [hp] at h
    · rw [lookup_cons, if_neg hp]
      apply ih
      simpa [hp] using h

theorem lookup_map_update_self {α : Type} (m : List (Nat × α)) (k : Nat) (f : α → α) :
    lookup (m.map (fun p => if p.1 = k then (p.1, f p.2) else p)) k = (lookup m k).map f := by
  induction m with
  | nil => rfl
  | cons p m ih =>
    by_cases hp : p.1 = k
    · simp only [List.map_cons, if_pos hp]
      rw [lookup_cons, lookup_cons, if_pos hp, if_pos hp]
      rfl
    · simp only [List.map_cons, if_neg hp]
      rw [lookup_cons, lookup_cons, if_neg hp, if_neg hp]
      exact ih

theorem lookup_map_update_ne {α : Type} (m : List (Nat × α)) (k k' : Nat) (f : α → α)
    (hk : k' ≠ k) :
    lookup (m.map (fun p => if p.1 = k then (p.1, f p.2) else p)) k' = lookup m k' := by
  induction m with
  | nil => rfl
  | cons p m ih =>
    by_cases hp : p.1 = k
    · have hku : p.1 ≠ k' := by rw [hp]; exact fun hh => hk hh.symm
      simp only [List.map_cons, if_pos hp]
      rw [lookup_cons, lookup_cons, if_neg hku, if_neg hku]
      exact ih
    · by_cases hp' : p.1 = k'
      · simp only [List.map_cons, if_neg hp]
        rw [lookup_cons, lookup_cons, if_pos hp', if_pos hp']
      · simp only [List.map_cons, if_neg hp]
        rw [lookup_cons, lookup_cons, if_neg hp', if_neg hp']
        exact ih

theorem lookup_map_set_self {α : Type} (m : List (Nat × α)) (k : Nat) (v : α)
    (h : m.any (fun p => p.1 = k) = true) :
    lookup (m.map (fun p => if p.1 = k then (k, v) else p)) k = some v := by
  induction m with
  | nil => simp at h
  | cons p m ih =>
    by_cases hp : p.1 = k
    · simp only [List.map_cons, if_pos hp]
      rw [lookup_cons, if_pos rfl]
    · simp only [List.map_cons, if_neg hp]
      rw [lookup_cons, if_neg hp]
      exact ih (by simpa [hp] using h)

theorem lookup_map_set_ne {α : Type} (m : List (Nat × α)) (k k' : Nat) (v : α) (hk : k' ≠ k) :
    lookup (m.map (fun p => if p.1 = k then (k, v) else p)) k' = lookup m k' := by
  induction m with
  | nil => rfl
  | cons p m ih =>
    by_cases hp : p.1 = k
    · have hne : ¬ (k = k') := fun hh => hk hh.symm
      have hku : p.1 ≠ k' := by rw [hp]; exact fun hh => hk hh.symm
      simp only [List.map_cons, if_pos hp]
      rw [lookup_cons, lookup_cons, if_neg hne, if_neg hku]
      exact ih
    · simp only [List.map_cons, if_neg hp]
      rw [lookup_cons, lookup_cons]
      by_cases hp' : p.1 = k'
      · rw [if_pos hp', if_pos hp']
      · rw [if_neg hp', if_neg hp']
        exact ih

theorem lookup_append_single {α : Type} (m : List (Nat × α)) (k k' : Nat) (v : α) :
    lookup (m ++ [(k, v)]) k' =
      match lookup m k' with
      | some w => some w
      | none => if k = k' then some v else none := by
  induction m with
  | nil =>
    rw [List.nil_append, lookup_cons]
    by_cases hk : k = k' <;> simp [hk, lookup]
  | cons p m ih =>
    rw [List.cons_append, lookup_cons, lookup_cons]
    by_cases hp' : p.1 = k'
    · rw [if_pos hp', if_pos hp']
    · rw [if_neg hp', if_neg hp']
      exact ih

theorem lookup_setKey_self {α : Type} (m : List (Nat × α)) (k : Nat) (v : α) :
    lookup (setKey m k v) k = some v := by
  unfold setKey
  split
  case isTrue h => exact lookup_map_set_self m k v h
  case isFalse h =>
    rw [lookup_append_single]
    rw [lookup_eq_none_of_any_eq_false m k (Bool.eq_false_iff.mpr h)]
    simp

theorem lookup_setKey_ne {α : Type} (m : List (Nat × α)) (k k' : Nat) (v : α) (hk : k' ≠ k) :
    lookup (setKey m k v) k' = lookup m k' := by
  unfold setKey
  split
  case isTrue h => exact lookup_map_set_ne m k k' v hk
  case isFalse h =>
    rw [lookup_append_single]
    have hne : ¬ (k = k') := fun hh => hk hh.symm
    cases hl : lookup m k' <;> simp [hl, hne]

/-- A token of the removed set never survives `classListRemove`. -/
theorem classListRemove_not_mem (cl cs : List Str) (c : Str) (hc : c ∈ cs) :
    c ∉ classListRemove cl cs := by
  unfold classListRemove
  intro hmem
  have := List.of_mem_filter hmem
  simp [hc] at this

/-! ## C3, C9, C10 -/

/-- Under a persistent config, the enter branch leaves the target ghost
unobserved and nothing later in the branch touches the observed set. -/
theorem onEntry_enter_observed (s : Sys) (target : Nat) (hp : s.cfg.persistent = true) :
    (onEntry s target true).observed = s.observed.filter (fun g => g ≠ target) := by
  unfold onEntry
  simp only [hp, if_true, ite_true]
  cases h : lookup { s with observed := s.observed.filter (fun g => g ≠ target) }.elems
      (resolveElement s target) with
  | none => simp [h]
  | some info =>
    simp only [h]
    repeat' split
    all_goals simp [processQueue_observed, applyClass_observed]

/-- C3: under a persistent config, Revealed is terminal: an exit notification
is a complete no-op (no class removal, no state change), and an enter
notification removes the delivering ghost from the observed set. -/
theorem c3_persistent_terminal (s : Sys) (target : Nat) (hp : s.cfg.persistent = true) :
    onEntry s target false = s ∧ target ∉ (onEntry s target true).observed := by
  constructor
  · unfold onEntry
    simp [hp]
  · rw [onEntry_enter_observed s target hp]
    simp

/-- Witness for C3 on a concrete one-element persistent instance. -/
theorem c3_persistent_terminal_witness :
    onEntry sPersist 0 false = sPersist ∧ 0 ∉ (onEntry sPersist 0 true).observed :=
  c3_persistent_terminal sPersist 0 rfl

/-- C9: an enter notification resolving to an element already in the reveal
queue leaves the queue unchanged (in particular a unique occurrence stays
unique), does not start a parallel drain loop (the drain flag and the
drain-step timeouts are untouched). -/
theorem c9_no_duplicate_enqueue (s : Sys) (target : Nat)
    (hq : resolveElement s target ∈ s.queue) :
    (onEntry s target true).queue = s.queue ∧
    (onEntry s target true).isProcessingQueue = s.isProcessingQueue ∧
    ((onEntry s target true).timers.filter (fun t => t.task = TimerTask.drainStep)) =
      (s.timers.filter (fun t => t.task = TimerTask.drainStep)) ∧
    (s.queue.count (resolveElement s target) = 1 →
      (onEntry s target true).queue.count (resolveElement s target) = 1) := by
  have main : (onEntry s target true).queue = s.queue ∧
      (onEntry s target true).isProcessingQueue = s.isProcessingQueue ∧
      ((onEntry s target true).timers.filter (fun t => t.task = TimerTask.drainStep)) =
        (s.timers.filter (fun t => t.task = TimerTask.drainStep)) := by
    unfold onEntry
    dsimp only
    cases hp : s.cfg.persistent <;>
      (simp only [Bool.false_eq_true, if_false, if_true]
       cases h : lookup s.elems (resolveElement s target) with
       | none => exact ⟨rfl, rfl, rfl⟩
       | some info =>
         dsimp only
         rw [if_neg (by simp [hq])]
         cases han : info.classList.contains ((effClasses s.cfg info).headD [])
         · rw [if_pos (by simp [han])]
           exact ⟨applyClass_queue .., applyClass_isProcessingQueue .., applyClass_drain_timers ..⟩
         · rw [if_neg (by simp [han])]
           exact ⟨rfl, rfl, rfl⟩)
  exact ⟨main.1, main.2.1, main.2.2, fun h1 => by rw [main.1]; exact h1⟩

/-- Witness for C9: in a two-element `stagger = 100` instance after both
enters, element 2 is still queued; a duplicate enter for its ghost changes
none of the queue state. -/
theorem c9_no_duplicate_enqueue_witness :
    resolveElement sC9 1 ∈ sC9.queue ∧ sC9.queue.count (resolveElement sC9 1) = 1 ∧
    ((onEntry sC9 1 true).queue = sC9.queue ∧
      (onEntry sC9 1 true).isProcessingQueue = sC9.isProcessingQueue ∧
      ((onEntry sC9 1 true).timers.filter (fun t => t.task = TimerTask.drainStep)) =
        (sC9.timers.filter (fun t => t.task = TimerTask.drainStep)) ∧
      (sC9.queue.count (resolveElement sC9 1) = 1 →
        (onEntry sC9 1 true).queue.count (resolveElement sC9 1) = 1)) :=
  ⟨by decide, by decide, c9_no_duplicate_enqueue sC9 1 (by decide)⟩

/-- C10: an enter notification for an element that already carries the first
of its effective reveal classes applies nothing: class lists, pending
timeouts, the callback log and the queue are all left unchanged. -/
theorem c10_already_active_noop (s : Sys) (target : Nat) (info : ElemInfo)
    (h : lookup s.elems (resolveElement s target) = some info)
    (han : info.classList.contains ((effClasses s.cfg info).headD []) = true) :
    (onEntry s target true).elems = s.elems ∧
    (onEntry s target true).timers = s.timers ∧
    (onEntry s target true).callbacks = s.callbacks ∧
    (onEntry s target true).queue = s.queue := by
  unfold onEntry
  dsimp only
  cases hp : s.cfg.persistent <;>
    (simp only [Bool.false_eq_true, if_false, if_true]
     simp only [h]
     try dsimp only
     have hmem : (effClasses s.cfg info).head?.getD [] ∈ info.classList := by
       simpa [List.headD_eq_head?_getD] using han
     rw [if_neg (by simp [hmem]), if_neg (by simp [hmem])]
     exact ⟨rfl, rfl, rfl, rfl⟩)

/-- One persistent element after its first reveal. -/
def sRevealed : Sys := onEntry (classyScroll {} false 0 0 [(1, plainElem)] [1]) 0 true

/-- The document data of the revealed element of `sRevealed`. -/
def infoRevealed : ElemInfo := { plainElem with classList := [str "is-visible"] }

/-- Witness for C10 on a concrete already-revealed element. -/
theorem c10_already_active_noop_witness :
    lookup sRevealed.elems (resolveElement sRevealed 0) = some infoRevealed ∧
    infoRevealed.classList.contains ((effClasses sRevealed.cfg infoRevealed).headD []) = true ∧
    ((onEntry sRevealed 0 true).elems = sRevealed.elems ∧
      (onEntry sRevealed 0 true).timers = sRevealed.timers ∧
      (onEntry sRevealed 0 true).callbacks = sRevealed.callbacks ∧
      (onEntry sRevealed 0 true).queue = sRevealed.queue) :=
  ⟨by decide, by decide, c10_already_active_noop sRevealed 0 infoRevealed (by decide) (by decide)⟩

/-! ## C7: reduced motion -/

/-- Under reduced motion `applyClass` degenerates to an immediate `execute`:
the per-element delay is skipped. -/
theorem applyClass_under_reduced (s : Sys) (el : Nat) (info : ElemInfo)
    (h : lookup s.elems el = some info) (hr : s.reduced = true) :
    applyClass s el = execute s el (effClasses s.cfg info) := by
  unfold applyClass
  simp only [h]
  try dsimp only
  rw [if_neg (by simp [isReducedMotion, hr])]

theorem execute_elems_self (s : Sys) (el : Nat) (cs : List Str) :
    lookup (execute s el cs).elems el =
      (lookup s.elems el).map (fun i => { i with classList := classListAdd i.classList cs }) := by
  unfold execute updateElem
  exact lookup_map_update_self s.elems el
    (fun i => { i with classList := classListAdd i.classList cs })

/-- C7: with reduced motion active, an enter notification for a not-yet
revealed element applies the reveal synchronously inside the notification:
the classes land at once, no timeout is scheduled, the stagger queue is
bypassed, and the callback fires; concretely, with `stagger = 100` and
`delay = 100`, two elements entering together are both revealed in the same
tick with no pending timers. -/
theorem c7_reduced_motion_instant (s : Sys) (target : Nat) (info : ElemInfo)
    (hr : s.reduced = true)
    (h : lookup s.elems (resolveElement s target) = some info)
    (han : info.classList.contains ((effClasses s.cfg info).headD []) = false) :
    (lookup (onEntry s target true).elems (resolveElement s target) =
      some { info with classList := classListAdd info.classList (effClasses s.cfg info) } ∧
    (onEntry s target true).timers = s.timers ∧
    (onEntry s target true).queue = s.queue ∧
    (onEntry s target true).callbacks = s.callbacks ++ [resolveElement s target]) ∧
    (cls sC7 1 = [str "is-visible"] ∧ cls sC7 2 = [str "is-visible"] ∧
      sC7.timers = [] ∧ sC7.queue = []) := by
  constructor
  · unfold onEntry
    dsimp only
    cases hp : s.cfg.persistent <;>
      (simp only [Bool.false_eq_true, if_false, if_true]
       simp only [h]
       try dsimp only
       have hnmem : (effClasses s.cfg info).head?.getD [] ∉ info.classList := by
         simpa [List.headD_eq_head?_getD] using han
       rw [if_neg (by simp [isReducedMotion, hr]), if_pos (by simp [hnmem])]
       rw [applyClass_under_reduced _ _ info (by exact h) (by exact hr)]
       refine ⟨?_, rfl, rfl, rfl⟩
       rw [execute_elems_self]
       simp only [h]
       rfl)
  · exact ⟨by decide, by decide, by decide, by decide⟩

/-- The reduced-motion instance of `sC7` before any notification. -/
def sC7pre : Sys :=
  classyScroll { stagger := some 100, delay := some 100 } true 0 0 elems3 [1, 2]

/-- Witness for C7 on the concrete reduced-motion scenario: the first enter
notification reveals element 1 synchronously. -/
theorem c7_reduced_motion_instant_witness :
    sC7pre.reduced = true ∧
    (lookup (onEntry sC7pre 0 true).elems (resolveElement sC7pre 0) =
      some { plainElem with
              classList := classListAdd plainElem.classList (effClasses sC7pre.cfg plainElem) } ∧
    (onEntry sC7pre 0 true).timers = sC7pre.timers ∧
    (onEntry sC7pre 0 true).queue = sC7pre.queue ∧
    (onEntry sC7pre 0 true).callbacks = sC7pre.callbacks ++ [resolveElement sC7pre 0]) :=
  ⟨by decide,
    (c7_reduced_motion_instant sC7pre 0 plainElem (by decide) (by decide) (by decide)).1⟩

/-! ## C2: stagger cadence -/

/-- C2: popping the front of a non-empty queue applies it and always
schedules the next drain step `stagger` ms later (0 under reduced motion),
whether or not the queue is empty afterwards; concretely, three elements
entering in one pass with `stagger = 100` are revealed at +0, +100 and
+200 ms in FIFO order. -/
theorem c2_stagger_fifo (s : Sys) (el : Nat) (rest : List Nat)
    (hq : s.queue = el :: rest) :
    ((processQueue s).queue = rest ∧
      (processQueue s).timers =
        (applyClass { s with isProcessingQueue := true, queue := rest } el).timers ++
          [{ id := (applyClass { s with isProcessingQueue := true, queue := rest } el).nextTimerId,
             due := s.now + (if s.reduced then 0 else s.cfg.stagger),
             task := TimerTask.drainStep }]) ∧
    ((cls sC2 1 = [str "visible"] ∧ cls sC2 2 = [] ∧ cls sC2 3 = [] ∧
        sC2.queue = [2, 3] ∧
        sC2.timers.map (fun t => (t.due, t.task)) = [(100, TimerTask.drainStep)]) ∧
      (cls (advanceTo 8 100 sC2) 2 = [str "visible"] ∧ cls (advanceTo 8 100 sC2) 3 = [] ∧
        (advanceTo 8 100 sC2).timers.map (fun t => (t.due, t.task)) =
          [(200, TimerTask.drainStep)]) ∧
      (cls (advanceTo 8 200 sC2) 3 = [str "visible"] ∧
        (advanceTo 8 200 sC2).timers.map (fun t => (t.due, t.task)) =
          [(300, TimerTask.drainStep)])) := by
  constructor
  · unfold processQueue
    simp only [hq]
    refine ⟨applyClass_queue .., ?_⟩
    unfold setTimer
    simp only [applyClass_now, applyClass_reduced, applyClass_cfg, isReducedMotion]
  · exact ⟨⟨by decide, by decide, by decide, by decide, by decide⟩,
      ⟨by decide, by decide, by decide⟩, by decide, by decide⟩

/-- A waiting state whose queue holds the single element 5 at time 40, with
nothing else pending. -/
def sQ1 : Sys :=
  { classyScroll { stagger := some 100 } false 0 0 [(5, plainElem)] [] with
      queue := [5], isProcessingQueue := true, now := 40 }

/-- Witness for C2: popping the one-element queue of `sQ1` empties it and
still schedules the next drain step at 40 + 100. -/
theorem c2_stagger_fifo_witness :
    sQ1.queue = 5 :: [] ∧
    ((processQueue sQ1).queue = [] ∧
      (processQueue sQ1).timers =
        (applyClass { sQ1 with isProcessingQueue := true, queue := [] } 5).timers ++
          [{ id := (applyClass { sQ1 with isProcessingQueue := true, queue := [] } 5).nextTimerId,
             due := sQ1.now + (if sQ1.reduced then 0 else sQ1.cfg.stagger),
             task := TimerTask.drainStep }]) :=
  ⟨rfl, (c2_stagger_fifo sQ1 5 [] rfl).1⟩

/-! ## C1: ghost resting position -/

/-- C1: registering a fresh element appends exactly one ghost node positioned
at `boundingBox.top + pageScrollY − translateY` (and left analogously), the
translation being parsed from the computed transform matrix; an absent,
empty or `none` transform, and any non-matrix-shaped string, all parse to the
zero translation, so the ghost sits at the resting layout position. -/
theorem c1_ghost_resting_position (s : Sys) (el : Nat) (info : ElemInfo)
    (h : lookup s.elems el = some info)
    (hn : s.tracked.any (fun p => p.1 = el) = false) :
    ((register s el).ghosts = s.ghosts ++
      [(s.nextGhostId,
        { top := info.rectTop + s.scrollY - (getComputedTranslate info.transform).y,
          left := info.rectLeft + s.scrollX - (getComputedTranslate info.transform).x,
          width := info.rectWidth,
          height := info.rectHeight })]) ∧
    getComputedTranslate none = { x := 0, y := 0 } ∧
    getComputedTranslate (some []) = { x := 0, y := 0 } ∧
    getComputedTranslate (some (str "none")) = { x := 0, y := 0 } ∧
    (∀ t : Str, matchMatrix t = none → getComputedTranslate (some t) = { x := 0, y := 0 }) := by
  refine ⟨?_, rfl, rfl, rfl, ?_⟩
  · unfold register
    simp only [hn, Bool.false_eq_true, if_false]
    simp only [h]
    rfl
  · intro t ht
    show getComputedTranslate (some t) = { x := 0, y := 0 }
    unfold getComputedTranslate
    dsimp only
    split
    · rfl
    · rw [ht]

/-- A fresh single-element instance with nothing registered yet. -/
def sFresh : Sys := classyScroll {} false 0 0 [(1, plainElem)] []

/-- Witness for C1: registering element 1 of `sFresh` appends its ghost at
the resting position, and the malformed transform `rotate(45deg)` parses to
the zero translation. -/
theorem c1_ghost_resting_position_witness :
    lookup sFresh.elems 1 = some plainElem ∧
    matchMatrix (str "rotate(45deg)") = none ∧
    ((register sFresh 1).ghosts = sFresh.ghosts ++
      [(sFresh.nextGhostId,
        { top := plainElem.rectTop + sFresh.scrollY - (getComputedTranslate plainElem.transform).y,
          left := plainElem.rectLeft + sFresh.scrollX - (getComputedTranslate plainElem.transform).x,
          width := plainElem.rectWidth,
          height := plainElem.rectHeight })]) ∧
    getComputedTranslate (some (str "rotate(45deg)")) = { x := 0, y := 0 } :=
  ⟨rfl, by decide,
    (c1_ghost_resting_position sFresh 1 plainElem rfl rfl).1,
    (c1_ghost_resting_position sFresh 1 plainElem rfl rfl).2.2.2.2 (str "rotate(45deg)")
      (by decide)⟩

/-! ## C8: per-element overrides -/

/-- Counterexample to C8 as stated: an element whose `data-cs-delay`
override is the string `"0"` does not have its override honoured — under a
global `delay = 500` the effective delay is 500, the enter notification
schedules a 500 ms timeout, and no class is applied synchronously, because
`parseInt(… ) || config.delay` treats the parsed 0 as falsy. -/
theorem c8_override_counterexample :
    elC8.csDelay = some (str "0") ∧
    (resolveConfig { delay := some 500 }).delay = 500 ∧
    effDelay (resolveConfig { delay := some 500 }) elC8 = 500 ∧
    cls sC8 1 = [] ∧
    sC8.timers.map (fun t => t.due) = [500] := by
  exact ⟨by decide, by decide, by decide, by decide, by decide⟩

/-- C8 (amended): at apply time an element-local class override replaces the
configured class list whenever the attribute is a non-empty string, and an
element-local delay override replaces the configured delay whenever it
parses to a non-zero integer; an override parsing to 0 or to NaN — and an
empty class override — falls back to the global config value. -/
theorem c8_override_amended (cfg : Config) (info : ElemInfo) (v c : Str) (n : Int) :
    (info.csDelay = some v → parseIntJS v = some n → ¬ n = 0 → effDelay cfg info = n) ∧
    (info.csDelay = some v → parseIntJS v = some 0 → effDelay cfg info = cfg.delay) ∧
    (info.csDelay = some v → parseIntJS v = none → effDelay cfg info = cfg.delay) ∧
    (info.csClass = some c → ¬ c = [] → effClasses cfg info = splitOnL (str " ") c) ∧
    (info.csClass = some [] → effClasses cfg info = splitOnL (str " ") cfg.className) := by
  refine ⟨?_, ?_, ?_, ?_, ?_⟩
  · intro hd hv hn
    unfold effDelay
    rw [hd]
    by_cases hve : v = []
    · subst hve
      rw [show parseIntJS ([] : Str) = none from rfl] at hv
      exact Option.noConfusion hv
    · dsimp only
      rw [if_neg hve, hv]
      dsimp only
      rw [if_neg hn]
  · intro hd hv
    unfold effDelay
    rw [hd]
    by_cases hve : v = []
    · subst hve
      rw [show parseIntJS ([] : Str) = none from rfl] at hv
      exact Option.noConfusion hv
    · dsimp only
      rw [if_neg hve, hv]
      simp
  · intro hd hv
    unfold effDelay
    rw [hd]
    by_cases hve : v = []
    · dsimp only
      rw [if_pos hve, show parseIntJS (str "0") = some 0 from by decide]
      simp
    · dsimp only
      rw [if_neg hve, hv]
  · intro hc hce
    unfold effClasses effClassStr
    rw [hc]
    dsimp only
    rw [if_neg hce]
  · intro hc
    unfold effClasses effClassStr
    rw [hc]
    dsimp only
    rw [if_pos rfl]

/-- Witness for C8 (amended): a `data-cs-delay` of `"200"` overrides a global
delay of 100, and a `data-cs-class` of `"custom"` overrides the configured
class list. -/
theorem c8_override_amended_witness :
    ({ plainElem with csDelay := some (str "200"), csClass := some (str "custom") }
        : ElemInfo).csDelay = some (str "200") ∧
    parseIntJS (str "200") = some 200 ∧
    effDelay (resolveConfig { delay := some 100 })
      { plainElem with csDelay := some (str "200"), csClass := some (str "custom") } = 200 ∧
    effClasses (resolveConfig { delay := some 100 })
      { plainElem with csDelay := some (str "200"), csClass := some (str "custom") } =
      splitOnL (str " ") (str "custom") :=
  ⟨rfl, by decide,
    (c8_override_amended (resolveConfig { delay := some 100 })
        { plainElem with csDelay := some (str "200"), csClass := some (str "custom") }
        (str "200") (str "custom") 200).1 rfl (by decide) (by decide),
    (c8_override_amended (resolveConfig { delay := some 100 })
        { plainElem with csDelay := some (str "200"), csClass := some (str "custom") }
        (str "200") (str "custom") 200).2.2.2.1 rfl (by decide)⟩

/-! ## C5: exit before the queued turn -/

theorem applyClass_elems_ne (s : Sys) (el e : Nat) (hne : e ≠ el) :
    lookup (applyClass s el).elems e = lookup s.elems e := by
  unfold applyClass setTimer
  cases h : lookup s.elems el with
  | none => rfl
  | some info =>
    dsimp only
    split
    · split <;> rfl
    · unfold execute updateElem
      exact lookup_map_update_ne s.elems el e
        (fun i => { i with classList := classListAdd i.classList (effClasses s.cfg info) }) hne

/-- A drain step never touches an element that is not in the queue. -/
theorem processQueue_elems_not_queued (s : Sys) (e : Nat) (h : e ∉ s.queue) :
    lookup (processQueue s).elems e = lookup s.elems e := by
  unfold processQueue
  cases hq : s.queue with
  | nil => rfl
  | cons el rest =>
    dsimp only
    have hne : e ≠ el := by
      rw [hq] at h
      simp only [List.mem_cons, not_or] at h
      exact h.1
    exact applyClass_elems_ne { s with isProcessingQueue := true, queue := rest } el e hne

theorem lookup_updateElem_self (s : Sys) (el : Nat) (f : ElemInfo → ElemInfo) :
    lookup (updateElem s el f).elems el = (lookup s.elems el).map f := by
  unfold updateElem
  exact lookup_map_update_self s.elems el f

/-- C5: an exit notification under a non-persistent config removes the
element from the reveal queue, cancels and clears its pending delay timeout,
and strips the effective reveal classes from the source; and a drain step
never reveals an element absent from the queue. -/
theorem c5_exit_cleanup (s : Sys) (target : Nat) (st : EState) (info : ElemInfo)
    (hp : s.cfg.persistent = false)
    (hst : lookup s.tracked (resolveElement s target) = some st)
    (hinfo : lookup s.elems (resolveElement s target) = some info)
    (hcount : s.queue.count (resolveElement s target) ≤ 1) :
    (resolveElement s target ∉ (onEntry s target false).queue ∧
     (∀ t ∈ (onEntry s target false).timers, st.timeoutId ≠ some t.id) ∧
     lookup (onEntry s target false).tracked (resolveElement s target) =
       some { st with timeoutId := none } ∧
     lookup (onEntry s target false).elems (resolveElement s target) =
       some { info with classList := classListRemove info.classList (effClasses s.cfg info) } ∧
     (∀ cl ∈ effClasses s.cfg info,
        cl ∉ classListRemove info.classList (effClasses s.cfg info))) ∧
    (∀ s2 : Sys, ∀ e : Nat, e ∉ s2.queue →
      lookup (processQueue s2).elems e = lookup s2.elems e) := by
  have hqueue : ∀ (l : List Nat), l = s.queue.erase (resolveElement s target) →
      resolveElement s target ∉ l := by
    intro l hl
    rw [hl]
    apply List.count_eq_zero.mp
    rw [List.count_erase_self]
    omega
  refine ⟨?_, fun s2 e he => processQueue_elems_not_queued s2 e he⟩
  unfold onEntry
  simp only [hp, Bool.false_eq_true, not_false_iff, if_false, if_true]
  try dsimp only
  simp only [hst]
  cases hto : st.timeoutId with
  | some id =>
    simp only [hto]
    try dsimp only
    refine ⟨hqueue _ rfl, ?_, ?_, ?_, ?_⟩
    · intro t ht
      intro heq
      have hid : id = t.id := Option.some.inj heq
      have ht' : t ∈ s.timers.filter (fun u => u.id ≠ id) := ht
      have := List.of_mem_filter ht'
      simp [hid] at this
    · exact lookup_setKey_self ..
    · refine (lookup_updateElem_self _ _ _).trans ?_
      dsimp only [clearTimer]
      rw [hinfo]
      rfl
    · exact fun cl hcl => classListRemove_not_mem info.classList (effClasses s.cfg info) cl hcl
  | none =>
    simp only [hto]
    try dsimp only
    have hst' : { st with timeoutId := none } = st := by
      obtain ⟨g, tid, tp, hh⟩ := st
      simp only at hto
      rw [hto]
    refine ⟨hqueue _ rfl, ?_, ?_, ?_, ?_⟩
    · intro t ht
      exact fun heq => Option.noConfusion heq
    · rw [hst']
      exact hst
    · refine (lookup_updateElem_self _ _ _).trans ?_
      rw [hinfo]
      rfl
    · exact fun cl hcl => classListRemove_not_mem info.classList (effClasses s.cfg info) cl hcl

/-- Tracked state of the C5 witness element: ghost 5, a pending 500 ms delay
timeout with id 7. -/
def stC5 : EState := { ghost := 5, timeoutId := some 7, top := 0, height := 0 }

/-- Document data of the C5 witness element: already revealed. -/
def infoC5 : ElemInfo := { plainElem with classList := [str "is-visible"] }

/-- A non-persistent instance in which element 1 is tracked via ghost 5, is
queued, and has a pending delay timeout. -/
def sExit : Sys :=
  { classyScroll { persistent := some false } false 0 0 [(1, infoC5)] [] with
      tracked := [(1, stC5)], queue := [1], observed := [5],
      ghosts := [(5, { top := 0, left := 0, width := 100, height := 50 })], nextGhostId := 6,
      timers := [{ id := 7, due := 500, task := TimerTask.execDelayed 1 [str "is-visible"] }],
      nextTimerId := 8 }

/-- Witness for C5: the exit notification for ghost 5 of `sExit` dequeues
element 1, cancels timeout 7 and strips the class. -/
theorem c5_exit_cleanup_witness :
    sExit.cfg.persistent = false ∧
    lookup sExit.tracked (resolveElement sExit 5) = some stC5 ∧
    lookup sExit.elems (resolveElement sExit 5) = some infoC5 ∧
    sExit.queue.count (resolveElement sExit 5) ≤ 1 ∧
    (resolveElement sExit 5 ∉ (onEntry sExit 5 false).queue ∧
     (∀ t ∈ (onEntry sExit 5 false).timers, stC5.timeoutId ≠ some t.id) ∧
     lookup (onEntry sExit 5 false).tracked (resolveElement sExit 5) =
       some { stC5 with timeoutId := none } ∧
     lookup (onEntry sExit 5 false).elems (resolveElement sExit 5) =
       some { infoC5 with
               classList := classListRemove infoC5.classList (effClasses sExit.cfg infoC5) } ∧
     (∀ cl ∈ effClasses sExit.cfg infoC5,
        cl ∉ classListRemove infoC5.classList (effClasses sExit.cfg infoC5))) :=
  ⟨rfl, rfl, rfl, by decide,
    (c5_exit_cleanup sExit 5 stC5 infoC5 rfl rfl rfl (by decide)).1⟩

/-! ## C4: teardown -/

theorem destroyStep_ghosts (acc : Sys) (p : Nat × EState) :
    (destroyStep acc p).ghosts = acc.ghosts.filter (fun g => g.1 ≠ p.2.ghost) := by
  unfold destroyStep clearTimer
  cases p.2.timeoutId <;> rfl

theorem destroyStep_timers (acc : Sys) (p : Nat × EState) :
    (destroyStep acc p).timers = acc.timers.filter (fun t => ¬ p.2.timeoutId = some t.id) := by
  unfold destroyStep clearTimer
  cases hto : p.2.timeoutId with
  | none => simp
  | some id =>
    dsimp only
    apply (List.filter_congr ?_).symm
    intro t _
    simp [eq_comm]

theorem destroyStep_rest (acc : Sys) (p : Nat × EState) :
    (destroyStep acc p).canvas = acc.canvas ∧ (destroyStep acc p).frame = acc.frame ∧
    (destroyStep acc p).tracked = acc.tracked ∧ (destroyStep acc p).queue = acc.queue := by
  unfold destroyStep clearTimer
  cases p.2.timeoutId <;> exact ⟨rfl, rfl, rfl, rfl⟩

theorem foldl_destroyStep_ghosts (l : List (Nat × EState)) (acc : Sys) :
    (l.foldl destroyStep acc).ghosts =
      acc.ghosts.filter (fun g => ¬ l.any (fun p => p.2.ghost = g.1)) := by
  induction l generalizing acc with
  | nil => simp
  | cons p l ih =>
    rw [List.foldl_cons, ih, destroyStep_ghosts, List.filter_filter]
    apply List.filter_congr
    intro g _
    by_cases h1 : p.2.ghost = g.1 <;> by_cases h2 : l.any (fun p => p.2.ghost = g.1) = true <;>
      simp [List.any_cons, h1, h2]
    exact fun he => h1 he.symm

theorem foldl_destroyStep_timers (l : List (Nat × EState)) (acc : Sys) :
    (l.foldl destroyStep acc).timers =
      acc.timers.filter (fun t => ¬ l.any (fun p => p.2.timeoutId = some t.id)) := by
  induction l generalizing acc with
  | nil => simp
  | cons p l ih =>
    rw [List.foldl_cons, ih, destroyStep_timers, List.filter_filter]
    apply List.filter_congr
    intro t _
    by_cases h1 : p.2.timeoutId = some t.id <;>
      by_cases h2 : l.any (fun p => p.2.timeoutId = some t.id) = true <;>
      simp [List.any_cons, h1, h2]

theorem foldl_destroyStep_rest (l : List (Nat × EState)) (acc : Sys) :
    (l.foldl destroyStep acc).canvas = acc.canvas ∧ (l.foldl destroyStep acc).frame = acc.frame ∧
    (l.foldl destroyStep acc).queue = acc.queue := by
  induction l generalizing acc with
  | nil => exact ⟨rfl, rfl, rfl⟩
  | cons p l ih =>
    rw [List.foldl_cons]
    refine ⟨?_, ?_, ?_⟩
    · rw [(ih (destroyStep acc p)).1, (destroyStep_rest acc p).1]
    · rw [(ih (destroyStep acc p)).2.1, (destroyStep_rest acc p).2.1]
    · rw [(ih (destroyStep acc p)).2.2, (destroyStep_rest acc p).2.2.2]

theorem destroy_tracked_queue (s : Sys) :
    (destroy s).tracked = [] ∧ (destroy s).queue = [] := ⟨rfl, rfl⟩

theorem destroy_ghosts (s : Sys) :
    (destroy s).ghosts =
      s.ghosts.filter (fun g => ¬ s.tracked.any (fun p => p.2.ghost = g.1)) := by
  unfold destroy
  dsimp only
  rw [foldl_destroyStep_ghosts]
  cases hrt : s.resizeTimerId <;> cases hdbg : s.cfg.debug <;>
    simp [clearTimer, hdbg]

theorem destroy_timers (s : Sys) :
    (destroy s).timers =
      (s.timers.filter (fun t => ¬ s.resizeTimerId = some t.id)).filter
        (fun t => ¬ s.tracked.any (fun p => p.2.timeoutId = some t.id)) := by
  unfold destroy
  dsimp only
  rw [foldl_destroyStep_timers]
  cases hrt : s.resizeTimerId with
  | none =>
    cases hdbg : s.cfg.debug <;>
      (simp only [clearTimer, hdbg, Bool.false_eq_true, if_false, if_true]
       try dsimp only
       congr 1
       rw [show (s.timers.filter (fun t => ¬ (none : Option Nat) = some t.id)) = s.timers
         from by simp])
  | some id =>
    cases hdbg : s.cfg.debug <;>
      (simp only [clearTimer, hdbg, Bool.false_eq_true, if_false, if_true]
       try dsimp only
       congr 1
       apply List.filter_congr
       intro t _
       simp [eq_comm])

theorem destroy_canvas (s : Sys) :
    (destroy s).canvas = (if s.cfg.debug then false else s.canvas) := by
  unfold destroy
  dsimp only
  rw [(foldl_destroyStep_rest ..).1]
  cases hrt : s.resizeTimerId <;> cases hdbg : s.cfg.debug <;>
    simp [clearTimer, hdbg]

theorem destroy_frame (s : Sys) :
    (destroy s).frame = (if s.cfg.debug then none else s.frame) := by
  unfold destroy
  dsimp only
  rw [(foldl_destroyStep_rest ..).2.1]
  cases hrt : s.resizeTimerId <;> cases hdbg : s.cfg.debug <;>
    simp [clearTimer, hdbg]

/-- Counterexample to C4 as stated: in `sC4pre` a stagger drain step was
scheduled (due at 100 ms) before `destroy`; after `destroy` that timeout is
still pending, and when the event loop next runs it fires at 100 ms — the
claim that no timer scheduled before the call fires thereafter is false for
the stagger drain step. -/
theorem c4_destroy_counterexample :
    sC4pre.timers = [{ id := 0, due := 100, task := TimerTask.drainStep }] ∧
    sC4.timers = [{ id := 0, due := 100, task := TimerTask.drainStep }] ∧
    nextTimer sC4 = some { id := 0, due := 100, task := TimerTask.drainStep } ∧
    (fireNext sC4).now = 100 ∧
    (fireNext sC4).timers = [] ∧
    sC4.ghosts = [] := by
  exact ⟨by decide, by decide, by decide, by decide, by decide, by decide⟩

/-- C4 (amended): after `destroy`, no ghost node and no overlay node of the
instance remains, the frame loop is cancelled, every recorded per-element
delay timeout and the resize debounce are cleared, and the table and queue
are emptied; however a pending stagger drain-step timeout is not cancelled —
it survives `destroy` and still fires, harmlessly, because the queue it
drains has been cleared. -/
theorem c4_destroy_amended (s : Sys)
    (hg : ∀ g ∈ s.ghosts, ∃ p ∈ s.tracked, p.2.ghost = g.1)
    (hc : s.canvas = true → s.cfg.debug = true)
    (hf : ∀ n, s.frame = some n → s.cfg.debug = true) :
    (destroy s).ghosts = [] ∧
    (destroy s).canvas = false ∧
    (destroy s).frame = none ∧
    (destroy s).tracked = [] ∧
    (destroy s).queue = [] ∧
    (∀ t ∈ (destroy s).timers,
      t ∈ s.timers ∧ ¬ s.resizeTimerId = some t.id ∧
        ∀ p ∈ s.tracked, ¬ p.2.timeoutId = some t.id) ∧
    (∀ t ∈ s.timers, ¬ s.resizeTimerId = some t.id →
      (∀ p ∈ s.tracked, ¬ p.2.timeoutId = some t.id) → t ∈ (destroy s).timers) ∧
    (∀ s2 : Sys, s2.queue = [] → processQueue s2 = { s2 with isProcessingQueue := false }) := by
  have hgh := destroy_ghosts s
  have hti := destroy_timers s
  have hcv := destroy_canvas s
  have hfr := destroy_frame s
  refine ⟨?_, ?_, ?_, (destroy_tracked_queue s).1, (destroy_tracked_queue s).2, ?_, ?_, ?_⟩
  · rw [hgh]
    apply List.filter_eq_nil_iff.mpr
    intro g hgm
    obtain ⟨p, hp, he⟩ := hg g hgm
    simp only [decide_not, Bool.not_eq_true', decide_eq_false_iff_not, not_not]
    exact List.any_eq_true.mpr ⟨p, hp, by simpa using he⟩
  · rw [hcv]
    cases hdbg : s.cfg.debug with
    | true => simp
    | false =>
      simp only [Bool.false_eq_true, if_false]
      cases hcan : s.canvas with
      | false => rfl
      | true => rw [hc hcan] at hdbg; exact Bool.noConfusion hdbg
  · rw [hfr]
    cases hdbg : s.cfg.debug with
    | true => simp
    | false =>
      simp only [Bool.false_eq_true, if_false]
      cases hfrm : s.frame with
      | none => rfl
      | some n => rw [hf n hfrm] at hdbg; exact Bool.noConfusion hdbg
  · intro t ht
    rw [hti] at ht
    have h1 := List.mem_filter.mp ht
    have h2 := List.mem_filter.mp h1.1
    refine ⟨h2.1, by simpa using h2.2, ?_⟩
    intro p hp heq
    have := h1.2
    simp only [decide_not, Bool.not_eq_true', decide_eq_false_iff_not] at this
    exact this (List.any_eq_true.mpr ⟨p, hp, by simpa using heq⟩)
  · intro t ht hrz htrk
    rw [hti]
    refine List.mem_filter.mpr ⟨List.mem_filter.mpr ⟨ht, by simpa using hrz⟩, ?_⟩
    simp only [decide_not, Bool.not_eq_true', decide_eq_false_iff_not]
    intro hany
    obtain ⟨p, hp, he⟩ := List.any_eq_true.mp hany
    exact htrk p hp (by simpa using he)
  · intro s2 hq
    unfold processQueue
    rw [hq]

/-- Witness for C4 (amended) on the concrete one-element instance. -/
theorem c4_destroy_amended_witness :
    (∀ g ∈ sC4pre.ghosts, ∃ p ∈ sC4pre.tracked, p.2.ghost = g.1) ∧
    (destroy sC4pre).ghosts = [] ∧
    (destroy sC4pre).canvas = false ∧
    (destroy sC4pre).frame = none ∧
    (destroy sC4pre).tracked = [] ∧
    (destroy sC4pre).queue = [] := by
  have happ := c4_destroy_amended sC4pre (by decide) (by decide)
    (fun n h => by
      rw [show sC4pre.frame = none from by decide] at h
      exact Option.noConfusion h)
  exact ⟨by decide, happ.1, happ.2.1, happ.2.2.1, happ.2.2.2.1, happ.2.2.2.2.1⟩

/-! ## C6: one proxy per source -/

theorem mem_of_lookup_eq_some {α : Type} {m : List (Nat × α)} {k : Nat} {v : α}
    (h : lookup m k = some v) : (k, v) ∈ m := by
  induction m with
  | nil => exact Option.noConfusion h
  | cons p m ih =>
    rw [lookup_cons] at h
    by_cases hp : p.1 = k
    · rw [if_pos hp] at h
      have hv : p.2 = v := Option.some.inj h
      have : p = (k, v) := by
        obtain ⟨a, b⟩ := p
        simp only at hp hv
        rw [hp, hv]
      rw [← this]
      exact List.mem_cons_self ..
    · rw [if_neg hp] at h
      exact List.mem_cons_of_mem p (ih h)

theorem any_eq_true_of_lookup_some {α : Type} {m : List (Nat × α)} {k : Nat} {v : α}
    (h : lookup m k = some v) : m.any (fun p => p.1 = k) = true :=
  List.any_eq_true.mpr ⟨(k, v), mem_of_lookup_eq_some h, by simp⟩

theorem lookup_of_mem_nodupKeys {α : Type} {m : List (Nat × α)} {k : Nat} {v : α}
    (hnd : (m.map Prod.fst).Nodup) (hm : (k, v) ∈ m) : lookup m k = some v := by
  induction m with
  | nil => exact absurd hm (List.not_mem_nil _)
  | cons p m ih =>
    rw [lookup_cons]
    rcases List.mem_cons.mp hm with heq | htl
    · rw [← heq]
      simp
    · have hk : k ∈ m.map Prod.fst := List.mem_map.mpr ⟨(k, v), htl, rfl⟩
      have hp : ¬ p.1 = k := by
        intro hpk
        have := (List.nodup_cons.mp hnd).1
        rw [hpk] at this
        exact this hk
      rw [if_neg hp]
      exact ih (List.nodup_cons.mp hnd).2 htl

theorem keys_map_replace (m : List (Nat × EState)) (el : Nat) (v : EState) :
    ((m.map (fun q => if q.1 = el then (el, v) else q)).map Prod.fst) = m.map Prod.fst := by
  induction m with
  | nil => rfl
  | cons p m ih =>
    simp only [List.map_cons]
    by_cases hp : p.1 = el
    · rw [if_pos hp, ih]
      simp [hp]
    · rw [if_neg hp, ih]

theorem map_replace_of_not_mem_keys (m : List (Nat × EState)) (el : Nat) (v : EState)
    (h : ∀ q ∈ m, q.1 ≠ el) :
    m.map (fun q => if q.1 = el then (el, v) else q) = m := by
  induction m with
  | nil => rfl
  | cons p m ih =>
    simp only [List.map_cons]
    rw [if_neg (h p (List.mem_cons_self ..)), ih (fun q hq => h q (List.mem_cons_of_mem p hq))]

theorem count_mapGhost_replace (m : List (Nat × EState)) (el : Nat) (v st : EState)
    (hnd : (m.map Prod.fst).Nodup) (hl : lookup m el = some st) (g : Nat) :
    ((m.map (fun q => if q.1 = el then (el, v) else q)).map (fun p => p.2.ghost)).count g
        + (if st.ghost = g then 1 else 0)
      = ((m.map (fun p => p.2.ghost)).count g) + (if v.ghost = g then 1 else 0) := by
  induction m with
  | nil => exact Option.noConfusion hl
  | cons p m ih =>
    rw [lookup_cons] at hl
    by_cases hp : p.1 = el
    · rw [if_pos hp] at hl
      have hv : p.2 = st := Option.some.inj hl
      have hmid : m.map (fun q => if q.1 = el then (el, v) else q) = m := by
        apply map_replace_of_not_mem_keys
        intro q hq hqe
        have := (List.nodup_cons.mp hnd).1
        rw [hp] at this
        exact this (hqe ▸ List.mem_map.mpr ⟨q, hq, rfl⟩)
      simp only [List.map_cons, if_pos hp, hmid, List.count_cons, hv, beq_iff_eq]
      omega
    · rw [if_neg hp] at hl
      simp only [List.map_cons, if_neg hp, List.count_cons, beq_iff_eq]
      have := ih (List.nodup_cons.mp hnd).2 hl
      omega

theorem ghostIds_filter (l : List (Nat × GhostInfo)) (x : Nat) :
    ((l.filter (fun p => p.1 ≠ x)).map Prod.fst) =
      (l.map Prod.fst).filter (fun g => g ≠ x) := by
  induction l with
  | nil => rfl
  | cons p l ih =>
    by_cases hp : p.1 = x
    · rw [List.filter_cons_of_neg (by simp [hp]), List.map_cons,
        List.filter_cons_of_neg (by simp [hp])]
      exact ih
    · rw [List.filter_cons_of_pos (by simp [hp]), List.map_cons, List.map_cons,
        List.filter_cons_of_pos (by simp [hp]), ih]

theorem count_filter_ne (l : List Nat) (x g : Nat) :
    (l.filter (fun a => a ≠ x)).count g = if g = x then 0 else l.count g := by
  induction l with
  | nil => simp
  | cons a l ih =>
    by_cases ha : a = x
    · rw [List.filter_cons_of_neg (by simp [ha]), ih]
      by_cases hg : g = x <;> simp [hg, ha, List.count_cons, beq_iff_eq]
    · rw [List.filter_cons_of_pos (by simp [ha]), List.count_cons, ih]
      simp only [beq_iff_eq]
      by_cases hg : g = x
      · by_cases hga : g = a
        · exact absurd (hga.symm.trans hg) ha
        · simp [hg, hga]
          exact ha
      · by_cases hga : g = a
        · simp [hg, hga, List.count_cons, beq_iff_eq, ha]
        · simp [hg, hga, List.count_cons, beq_iff_eq]
          exact fun he => hga he.symm

theorem setKey_of_any_eq_false {α : Type} (m : List (Nat × α)) (k : Nat) (v : α)
    (h : m.any (fun p => p.1 = k) = false) : setKey m k v = m ++ [(k, v)] := by
  unfold setKey
  simp [h]

theorem setKey_of_any_eq_true {α : Type} (m : List (Nat × α)) (k : Nat) (v : α)
    (h : m.any (fun p => p.1 = k) = true) :
    setKey m k v = m.map (fun q => if q.1 = k then (k, v) else q) := by
  unfold setKey
  simp [h]

theorem not_mem_keys_of_any_eq_false {α : Type} {m : List (Nat × α)} {k : Nat}
    (h : m.any (fun p => p.1 = k) = false) : k ∉ m.map Prod.fst := by
  intro hk
  obtain ⟨q, hq, he⟩ := List.mem_map.mp hk
  have : m.any (fun p => p.1 = k) = true := List.any_eq_true.mpr ⟨q, hq, by simp [he]⟩
  rw [h] at this
  exact Bool.noConfusion this

/-- `register` preserves the one-proxy-per-source invariant. -/
theorem register_ghostInv (s : Sys) (el : Nat) (inv : GhostInv s) :
    GhostInv (register s el) := by
  unfold register
  cases hany : s.tracked.any (fun p => p.1 = el) with
  | true =>
    simp only [hany, if_true]
    exact inv
  | false =>
    simp only [hany, Bool.false_eq_true, if_false]
    cases hel : lookup s.elems el with
    | none => exact inv
    | some info =>
      dsimp only [createGhost]
      rw [show (setKey s.tracked el
            { ghost := s.nextGhostId, timeoutId := none,
              top := info.rectTop + s.scrollY - (getComputedTranslate info.transform).y,
              height := info.rectHeight }) =
          s.tracked ++ [(el,
            { ghost := s.nextGhostId, timeoutId := none,
              top := info.rectTop + s.scrollY - (getComputedTranslate info.transform).y,
              height := info.rectHeight })]
        from setKey_of_any_eq_false s.tracked el _ hany]
      have hgid : s.nextGhostId ∉ s.ghosts.map Prod.fst := by
        intro hmem
        exact absurd (inv.docBound s.nextGhostId hmem) (lt_irrefl _)
      constructor
      · intro g
        have hc := inv.counts g
        simp only [docGhostIds, trackedGhostIds] at hc
        simp only [docGhostIds, trackedGhostIds, List.map_append, List.count_append]
        rw [hc]
        rfl
      · intro g
        have hnd := inv.docNodup g
        simp only [docGhostIds] at hnd
        simp only [docGhostIds, List.map_append, List.count_append]
        by_cases hgg : g = s.nextGhostId
        · rw [hgg, List.count_eq_zero_of_not_mem hgid]
          simp
        · have h2 : (List.count g (List.map Prod.fst [(s.nextGhostId,
              ({ top := info.rectTop + s.scrollY - (getComputedTranslate info.transform).y,
                 left := info.rectLeft + s.scrollX - (getComputedTranslate info.transform).x,
                 width := info.rectWidth, height := info.rectHeight } : GhostInfo))])) = 0 :=
            List.count_eq_zero_of_not_mem (by simp [hgg])
          rw [h2]
          omega
      · intro g hg
        simp only [docGhostIds, List.map_append] at hg
        rcases List.mem_append.mp hg with hold | hnew
        · exact Nat.lt_succ_of_lt (inv.docBound g hold)
        · simp only [List.map_cons, List.map_nil, List.mem_singleton] at hnew
          rw [hnew]
          exact Nat.lt_succ_self _
      · simp only [List.map_append]
        rw [List.nodup_append]
        refine ⟨inv.keysNodup, List.nodup_singleton _, ?_⟩
        intro a ha
        simp only [List.map_cons, List.map_nil, List.mem_singleton]
        intro hae
        rw [hae] at ha
        exact not_mem_keys_of_any_eq_false hany ha
      · intro p hp
        rcases List.mem_append.mp hp with hold | hnew
        · exact inv.elemsOk p hold
        · simp only [List.mem_singleton] at hnew
          rw [hnew]
          simp only
          rw [hel]
          exact fun h => Option.noConfusion h

theorem resyncOne_tracked_ne (s : Sys) (el : Nat) (st : EState) (e : Nat) (hne : e ≠ el) :
    lookup (resyncOne s el st).tracked e = lookup s.tracked e := by
  unfold resyncOne
  dsimp only
  cases h : lookup s.elems el with
  | none => rfl
  | some info =>
    dsimp only [createGhost]
    exact lookup_setKey_ne s.tracked el e _ hne

/-- One resize rebuild step preserves the one-proxy-per-source invariant. -/
theorem resyncOne_ghostInv (s : Sys) (el : Nat) (st : EState)
    (inv : GhostInv s) (hl : lookup s.tracked el = some st) :
    GhostInv (resyncOne s el st) := by
  have hmem : (el, st) ∈ s.tracked := mem_of_lookup_eq_some hl
  have hany : s.tracked.any (fun p => p.1 = el) = true := any_eq_true_of_lookup_some hl
  have hstg_tr : st.ghost ∈ trackedGhostIds s :=
    List.mem_map.mpr ⟨(el, st), hmem, rfl⟩
  have hstg_count : 1 ≤ (trackedGhostIds s).count st.ghost :=
    List.count_pos_iff.mpr hstg_tr
  have hstg_doc_count : (docGhostIds s).count st.ghost = 1 := by
    have h1 := inv.counts st.ghost
    have h2 := inv.docNodup st.ghost
    omega
  have hstg_doc : st.ghost ∈ docGhostIds s := by
    apply List.count_pos_iff.mp
    omega
  have hstg_lt : st.ghost < s.nextGhostId := inv.docBound st.ghost hstg_doc
  unfold resyncOne
  dsimp only
  cases hel : lookup s.elems el with
  | none => exact absurd hel (inv.elemsOk (el, st) hmem)
  | some info =>
    dsimp only [createGhost]
    rw [setKey_of_any_eq_true s.tracked el _ hany]
    constructor
    · intro g
      have hrep := count_mapGhost_replace s.tracked el
        { ghost := s.nextGhostId, timeoutId := st.timeoutId,
          top := info.rectTop + s.scrollY - (getComputedTranslate info.transform).y,
          height := info.rectHeight } st inv.keysNodup hl g
      have hc := inv.counts g
      have hnd := inv.docNodup g
      simp only [docGhostIds, trackedGhostIds] at hc hnd hstg_doc_count ⊢
      simp only [List.map_append, List.count_append]
      rw [show ((s.ghosts.filter (fun p => p.1 ≠ st.ghost)).map Prod.fst) =
          ((s.ghosts.map Prod.fst).filter (fun g => g ≠ st.ghost))
        from ghostIds_filter s.ghosts st.ghost]
      rw [count_filter_ne]
      dsimp only at hrep
      simp only [List.map_cons, List.map_nil]
      by_cases h1 : g = st.ghost
      · subst h1
        have hne1 : ¬ st.ghost = s.nextGhostId := by omega
        have hne2 : ¬ s.nextGhostId = st.ghost := by omega
        have hone : List.count st.ghost [s.nextGhostId] = 0 :=
          List.count_eq_zero_of_not_mem (by simp [hne1])
        rw [if_pos rfl, if_neg hne2] at hrep
        rw [if_pos rfl, hone]
        omega
      · have h1' : ¬ st.ghost = g := fun h => h1 h.symm
        rw [if_neg h1'] at hrep
        rw [if_neg h1]
        by_cases h2 : g = s.nextGhostId
        · have h2' : s.nextGhostId = g := h2.symm
          rw [if_pos h2'] at hrep
          have hone : List.count g [s.nextGhostId] = 1 := by
            rw [h2]
            simp
          rw [hone]
          have hzero : List.count g (List.map Prod.fst s.ghosts) = 0 := by
            apply List.count_eq_zero_of_not_mem
            intro hm
            have := inv.docBound g hm
            omega
          omega
        · have h2' : ¬ s.nextGhostId = g := fun h => h2 h.symm
          rw [if_neg h2'] at hrep
          have hone : List.count g [s.nextGhostId] = 0 :=
            List.count_eq_zero_of_not_mem (by simp [h2])
          rw [hone]
          omega
    · intro g
      have hnd := inv.docNodup g
      simp only [docGhostIds] at hnd ⊢
      simp only [List.map_append, List.count_append]
      rw [show ((s.ghosts.filter (fun p => p.1 ≠ st.ghost)).map Prod.fst) =
          ((s.ghosts.map Prod.fst).filter (fun g => g ≠ st.ghost))
        from ghostIds_filter s.ghosts st.ghost]
      rw [count_filter_ne]
      simp only [List.map_cons, List.map_nil]
      by_cases h2 : g = s.nextGhostId
      · have hzero : List.count g (List.map Prod.fst s.ghosts) = 0 := by
          apply List.count_eq_zero_of_not_mem
          intro hmem2
          have := inv.docBound g hmem2
          omega
        have hone : List.count g [s.nextGhostId] = 1 := by
          rw [h2]
          simp
        rw [hone]
        by_cases h1 : g = st.ghost
        · rw [if_pos h1]
        · rw [if_neg h1, hzero]
      · have hone : List.count g [s.nextGhostId] = 0 :=
          List.count_eq_zero_of_not_mem (by simp [h2])
        rw [hone]
        by_cases h1 : g = st.ghost
        · rw [if_pos h1]
          omega
        · rw [if_neg h1]
          omega
    · intro g hg
      show g < s.nextGhostId + 1
      simp only [docGhostIds, List.map_append] at hg
      rcases List.mem_append.mp hg with hold | hnew
      · rw [ghostIds_filter] at hold
        have := inv.docBound g (List.mem_of_mem_filter hold)
        omega
      · simp only [List.map_cons, List.map_nil, List.mem_singleton] at hnew
        omega
    · rw [keys_map_replace]
      exact inv.keysNodup
    · intro p hp
      obtain ⟨q, hq, he⟩ := List.mem_map.mp hp
      have hkey : p.1 = q.1 := by
        rw [← he]
        by_cases hqe : q.1 = el
        · rw [if_pos hqe]
          exact hqe.symm
        · rw [if_neg hqe]
      rw [hkey]
      exact inv.elemsOk q hq

/-- The ghost recorded for a tracked source is strictly below the allocator. -/
theorem tracked_ghost_lt (s : Sys) {el : Nat} {st : EState} (inv : GhostInv s)
    (hl : lookup s.tracked el = some st) : st.ghost < s.nextGhostId := by
  have hmem : (el, st) ∈ s.tracked := mem_of_lookup_eq_some hl
  have hstg_tr : st.ghost ∈ trackedGhostIds s := List.mem_map.mpr ⟨(el, st), hmem, rfl⟩
  have hstg_count : 1 ≤ (trackedGhostIds s).count st.ghost :=
    List.count_pos_iff.mpr hstg_tr
  have h1 := inv.counts st.ghost
  refine inv.docBound st.ghost (List.count_pos_iff.mp ?_)
  omega

/-- The debounced resize body, processed entry by entry, preserves the
one-proxy-per-source invariant. -/
theorem resizeFlush_go_ghostInv (l : List (Nat × EState)) (acc : Sys)
    (inv : GhostInv acc) (hnd : (l.map Prod.fst).Nodup)
    (hlk : ∀ p ∈ l, lookup acc.tracked p.1 = some p.2) :
    GhostInv (l.foldl (fun a q => resyncOne a q.1 q.2) acc) := by
  induction l generalizing acc with
  | nil => exact inv
  | cons p l ih =>
    rw [List.foldl_cons]
    apply ih
    · exact resyncOne_ghostInv acc p.1 p.2 inv (hlk p (List.mem_cons_self ..))
    · exact (List.nodup_cons.mp hnd).2
    · intro q hq
      have hne : q.1 ≠ p.1 := by
        intro he
        exact (List.nodup_cons.mp hnd).1 (he ▸ List.mem_map.mpr ⟨q, hq, rfl⟩)
      rw [resyncOne_tracked_ne acc p.1 p.2 q.1 hne]
      exact hlk q (List.mem_cons_of_mem p hq)

theorem resizeFlush_ghostInv (s : Sys) (inv : GhostInv s) : GhostInv (resizeFlush s) := by
  unfold resizeFlush
  exact resizeFlush_go_ghostInv s.tracked s inv inv.keysNodup
    (fun p hp => lookup_of_mem_nodupKeys inv.keysNodup hp)

theorem foldl_register_ghostInv (ts : List Nat) (acc : Sys) (inv : GhostInv acc) :
    GhostInv (ts.foldl register acc) := by
  induction ts generalizing acc with
  | nil => exact inv
  | cons t ts ih =>
    rw [List.foldl_cons]
    exact ih _ (register_ghostInv acc t inv)

/-- Every freshly initialized instance satisfies the invariant. -/
theorem classyScroll_ghostInv (o : Options) (reduced : Bool) (sx sy : Rat)
    (elems : List (Nat × ElemInfo)) (targets : List Nat) :
    GhostInv (classyScroll o reduced sx sy elems targets) := by
  unfold classyScroll
  apply foldl_register_ghostInv
  refine ⟨fun g => rfl, fun g => by simp [docGhostIds], ?_, ?_, ?_⟩
  · intro g hg
    simp [docGhostIds] at hg
  · simp
  · intro p hp
    simp at hp

/-- One resize rebuild step replaces the source's proxy wholesale: the table
entry now records a fresh ghost id (keeping the pending timeout), the old
ghost node is out of the document and unobserved, and the new one is in the
document and observed. -/
theorem resyncOne_replaces (s : Sys) (el : Nat) (st : EState) (info : ElemInfo)
    (inv : GhostInv s) (hst : lookup s.tracked el = some st)
    (hinfo : lookup s.elems el = some info) :
    (lookup (resyncOne s el st).tracked el).map (fun q => q.ghost) = some s.nextGhostId ∧
    (lookup (resyncOne s el st).tracked el).map (fun q => q.timeoutId) = some st.timeoutId ∧
    st.ghost ≠ s.nextGhostId ∧
    st.ghost ∉ (resyncOne s el st).ghosts.map Prod.fst ∧
    s.nextGhostId ∈ (resyncOne s el st).ghosts.map Prod.fst ∧
    st.ghost ∉ (resyncOne s el st).observed ∧
    s.nextGhostId ∈ (resyncOne s el st).observed := by
  have hlt : st.ghost < s.nextGhostId := tracked_ghost_lt s inv hst
  unfold resyncOne
  dsimp only
  simp only [hinfo]
  dsimp only [createGhost]
  refine ⟨?_, ?_, by omega, ?_, ?_, ?_, ?_⟩
  · rw [lookup_setKey_self]
    rfl
  · rw [lookup_setKey_self]
    rfl
  · intro hm
    simp only [List.map_append] at hm
    rcases List.mem_append.mp hm with h | h
    · rw [ghostIds_filter] at h
      have := List.of_mem_filter h
      simp at this
    · simp only [List.map_cons, List.map_nil, List.mem_singleton] at h
      omega
  · simp only [List.map_append]
    exact List.mem_append.mpr (Or.inr (by simp))
  · intro hm
    rcases List.mem_append.mp hm with h | h
    · have := List.of_mem_filter h
      simp at this
    · simp only [List.mem_singleton] at h
      omega
  · exact List.mem_append.mpr (Or.inr (by simp))

/-- C6: registration is idempotent (an already-tracked source gets no second
proxy and no second observation), the one-proxy-per-source invariant holds
of every fresh instance and is preserved by `register` and by the debounced
resize rebuild, and each rebuild step replaces the source's proxy wholesale
(fresh node created, observed and added; old node unobserved and removed)
rather than mutating it in place. -/
theorem c6_one_proxy_per_source (s : Sys) (el : Nat) :
    (s.tracked.any (fun p => p.1 = el) = true → register s el = s) ∧
    (GhostInv s → GhostInv (register s el)) ∧
    (GhostInv s → GhostInv (resizeFlush s)) ∧
    (∀ (o : Options) (reduced : Bool) (sx sy : Rat) (elems : List (Nat × ElemInfo))
        (targets : List Nat), GhostInv (classyScroll o reduced sx sy elems targets)) ∧
    (∀ st info, GhostInv s → lookup s.tracked el = some st → lookup s.elems el = some info →
      ((lookup (resyncOne s el st).tracked el).map (fun q => q.ghost) = some s.nextGhostId ∧
       (lookup (resyncOne s el st).tracked el).map (fun q => q.timeoutId) = some st.timeoutId ∧
       st.ghost ≠ s.nextGhostId ∧
       st.ghost ∉ (resyncOne s el st).ghosts.map Prod.fst ∧
       s.nextGhostId ∈ (resyncOne s el st).ghosts.map Prod.fst ∧
       st.ghost ∉ (resyncOne s el st).observed ∧
       s.nextGhostId ∈ (resyncOne s el st).observed)) := by
  refine ⟨?_, register_ghostInv s el, resizeFlush_ghostInv s, classyScroll_ghostInv,
    fun st info inv hst hinfo => resyncOne_replaces s el st info inv hst hinfo⟩
  intro h
  unfold register
  simp [h]

/-- Witness for C6 on `sExit`: element 1 is tracked via ghost 5, so a second
`register` is a no-op, and one resize rebuild step swaps ghost 5 for the
fresh ghost 6. -/
theorem c6_one_proxy_per_source_witness :
    sExit.tracked.any (fun p => p.1 = 1) = true ∧
    lookup sExit.tracked 1 = some stC5 ∧
    lookup sExit.elems 1 = some infoC5 ∧
    register sExit 1 = sExit ∧
    GhostInv (register sExit 1) ∧
    GhostInv (resizeFlush sExit) ∧
    ((lookup (resyncOne sExit 1 stC5).tracked 1).map (fun q => q.ghost) =
        some sExit.nextGhostId ∧
     (lookup (resyncOne sExit 1 stC5).tracked 1).map (fun q => q.timeoutId) =
        some stC5.timeoutId ∧
     stC5.ghost ≠ sExit.nextGhostId ∧
     stC5.ghost ∉ (resyncOne sExit 1 stC5).ghosts.map Prod.fst ∧
     sExit.nextGhostId ∈ (resyncOne sExit 1 stC5).ghosts.map Prod.fst ∧
     stC5.ghost ∉ (resyncOne sExit 1 stC5).observed ∧
     sExit.nextGhostId ∈ (resyncOne sExit 1 stC5).observed) := by
  have hinv : GhostInv sExit := by
    refine ⟨fun g => rfl, ?_, by decide, by decide, by decide⟩
    intro g
    show List.count g [5] ≤ 1
    by_cases h : g = 5 <;> simp [List.count_cons, h]
  exact ⟨by decide, rfl, rfl,
    (c6_one_proxy_per_source sExit 1).1 (by decide),
    (c6_one_proxy_per_source sExit 1).2.1 hinv,
    (c6_one_proxy_per_source sExit 1).2.2.1 hinv,
    (c6_one_proxy_per_source sExit 1).2.2.2.2 stC5 infoC5 hinv rfl rfl⟩

end ClassyScroll
